import Mathlib

/-!
H2O molecule builder (`proj2.c`): embedding and verified properties

The program forks one process per atom; the processes synchronise through
POSIX semaphores and a shared memory record.  This file embeds the functions
of `proj2.c` as executable functions on an explicit machine state, and the
processes as a transition system driven by a schedule, and proves properties
of them.

Conventions of the embedding
* `int` values are `Int`.  A signed computation whose mathematical result does
  not fit in 32 bits is undefined behaviour in C: `int_result` gives `none`
  there, and every function that computes on `int` returns `Option`.
* `unsigned int` values are `Nat` below `2 ^ 32`; conversions wrap modulo
  `2 ^ 32` (`to_unsigned`, `to_int`), as on the LP64 targets this POSIX program
  is built for, where `long` has 64 bits.
* a semaphore is its current value (`Nat`); `sem_post` adds one.
-/

namespace H2O

/-! ## Machine integers -/

/-- Largest value of `int`. -/
def INT_MAX : Int := 2147483647

/-- Smallest value of `int`. -/
def INT_MIN : Int := -2147483648

/-- Number of values of `unsigned int`. -/
def UINT_RANGE : Nat := 4294967296

/-- Largest value of `long` (LP64). -/
def LONG_MAX : Int := 9223372036854775807

/-- Smallest value of `long` (LP64). -/
def LONG_MIN : Int := -9223372036854775808

/-- Value of a signed `int` expression whose mathematical value is `x`; it
is defined only when `x` is representable. -/
def int_result (x : Int) : Option Int :=
  if INT_MIN ≤ x ∧ x ≤ INT_MAX then some x else none

/-- Conversion `(int)u` of an `unsigned int`. -/
def to_int (u : Nat) : Int :=
  if u % UINT_RANGE ≤ 2147483647 then ((u % UINT_RANGE : Nat) : Int)
  else ((u % UINT_RANGE : Nat) : Int) - 4294967296

/-- Conversion of a signed value (`int` or `long`) to `unsigned int`. -/
def to_unsigned (x : Int) : Nat := (x % 4294967296).toNat

/-! ## Data model -/

/-- Program configuration, `struct config`. -/
structure config_t where
  oxygen_amount : Nat
  hydrogen_amount : Nat
  wait_time : Nat
  bond_time : Nat
deriving DecidableEq

/-- Shared memory, `struct shared_memory`. -/
structure shared_memory_t where
  action_id : Int
  oxygen_id : Int
  hydrogen_id : Int
  molecule_id : Int
  oxygens : Int
  hydrogens : Int
  bond : Int
  shutdown : Int
  max_molecules : Int
deriving DecidableEq

/-- Current value of every semaphore of `struct semaphores`. -/
structure semaphores_t where
  mutex : Nat
  oxyQueue : Nat
  hydroQueue : Nat
  barrier : Nat
  print_mutex : Nat
  bond_mutex : Nat
  mol_created : Nat
  release_function : Nat
deriving DecidableEq

/-- One line of `proj2.out`: the stamped number and the formatted text. -/
structure line_t where
  stamp : Int
  text : String
deriving DecidableEq

/-- Everything the atom processes share: memory, semaphores, output file. -/
structure World where
  mem : shared_memory_t
  sem : semaphores_t
  out : List line_t
deriving DecidableEq

/-! ## Start-up -/

/-- Body of `init_shared_memory` (the mapping succeeded). -/
def init_shared_memory (config : config_t) : shared_memory_t :=
  { action_id := 1
    oxygen_id := 1
    hydrogen_id := 1
    molecule_id := 0
    oxygens := 0
    hydrogens := 0
    bond := 0
    shutdown := 0
    max_molecules :=
      if config.oxygen_amount > config.hydrogen_amount / 2 then
        Int.tdiv (to_int config.hydrogen_amount) 2
      else
        to_int config.oxygen_amount }

/-- Initial semaphore values set by `open_semaphores`. -/
def open_semaphores : semaphores_t :=
  { oxyQueue := 0
    hydroQueue := 0
    barrier := 0
    mutex := 1
    print_mutex := 1
    bond_mutex := 1
    mol_created := 0
    release_function := 0 }

/-- State in which the atom processes start: `main` has opened the (empty)
output file, initialised the shared memory and opened the semaphores. -/
def start (config : config_t) : World :=
  { mem := init_shared_memory config, sem := open_semaphores, out := [] }

/-! ## Pairing critical sections -/

/-- Critical section of `oxygen_function`: the statements between
`sem_wait(mutex)` and `sem_wait(oxyQueue)`. -/
def oxygen_arrival (w : World) : Option World := do
  let oxygens ← int_result (w.mem.oxygens + 1)
  if w.mem.hydrogens ≥ 2 then
    let molecule_id ← int_result (w.mem.molecule_id + 1)
    let hydrogens ← int_result (w.mem.hydrogens - 2)
    let oxygens ← int_result (oxygens - 1)
    some { w with
      mem := { w.mem with molecule_id := molecule_id, hydrogens := hydrogens, oxygens := oxygens }
      sem := { w.sem with hydroQueue := w.sem.hydroQueue + 1 + 1, oxyQueue := w.sem.oxyQueue + 1 } }
  else
    some { w with
      mem := { w.mem with oxygens := oxygens }
      sem := { w.sem with mutex := w.sem.mutex + 1 } }

/-- Critical section of `hydrogen_function`: the statements between
`sem_wait(mutex)` and `sem_wait(hydroQueue)`. -/
def hydrogen_arrival (w : World) : Option World := do
  let hydrogens ← int_result (w.mem.hydrogens + 1)
  if hydrogens ≥ 2 ∧ w.mem.oxygens ≥ 1 then
    let molecule_id ← int_result (w.mem.molecule_id + 1)
    let hydrogens ← int_result (hydrogens - 2)
    let oxygens ← int_result (w.mem.oxygens - 1)
    some { w with
      mem := { w.mem with molecule_id := molecule_id, hydrogens := hydrogens, oxygens := oxygens }
      sem := { w.sem with hydroQueue := w.sem.hydroQueue + 1 + 1, oxyQueue := w.sem.oxyQueue + 1 } }
  else
    some { w with
      mem := { w.mem with hydrogens := hydrogens }
      sem := { w.sem with mutex := w.sem.mutex + 1 } }

/-- The two species of atom. -/
inductive atom where
  | O
  | H
deriving DecidableEq

/-- Critical section executed by an arriving atom of the given species. -/
def arrival : atom → World → Option World
  | atom.O => oxygen_arrival
  | atom.H => hydrogen_arrival

/-- Executes the critical sections of the arriving atoms one after the other,
in the order in which they obtain the pairing mutex.  Nothing but the critical
sections runs, so the semaphore values accumulate their posts. -/
def arrivals : List atom → World → Option World
  | [], w => some w
  | a :: rest, w => (arrival a w).bind (arrivals rest)

/-- Molecule ids handed out along a sequence of arrivals: the value of
`molecule_id` after each critical section that incremented it. -/
def ids_handed_out : List atom → World → List Int
  | [], _ => []
  | a :: rest, w =>
    match arrival a w with
    | none => []
    | some w' =>
      if w'.mem.molecule_id = w.mem.molecule_id then ids_handed_out rest w'
      else w'.mem.molecule_id :: ids_handed_out rest w'

/-- Ids `1, 2, ..., n`. -/
def first_ids (n : Nat) : List Int := (List.range n).map (fun (i : Nat) => (i : Int) + 1)

/-- The pairing invariant of the shared counters: both are non-negative and
no pairing is pending. -/
def pairing_invariant (w : World) : Prop :=
  w.mem.oxygens ≥ 0 ∧ w.mem.hydrogens ≥ 0 ∧ (w.mem.hydrogens < 2 ∨ w.mem.oxygens < 1)

/-- The arriving atom counts itself: its species counter goes up by one. -/
def spec_count_arrival (a : atom) (w : World) : World :=
  match a with
  | atom.O => { w with mem := { w.mem with oxygens := w.mem.oxygens + 1 } }
  | atom.H => { w with mem := { w.mem with hydrogens := w.mem.hydrogens + 1 } }

/-- A commit as the specification words it: `molecule_id` up by one, two
hydrogens and one oxygen leave the counters, two tokens go to the hydrogen
queue and one to the oxygen queue; the pairing mutex stays taken. -/
def spec_commit (w : World) : World :=
  { w with
    mem := { w.mem with
      molecule_id := w.mem.molecule_id + 1
      hydrogens := w.mem.hydrogens - 2
      oxygens := w.mem.oxygens - 1 }
    sem := { w.sem with
      hydroQueue := w.sem.hydroQueue + 2
      oxyQueue := w.sem.oxyQueue + 1 } }

/-- A non-commit as the specification words it: only the pairing mutex is
released. -/
def spec_no_commit (w : World) : World :=
  { w with sem := { w.sem with mutex := w.sem.mutex + 1 } }

/-- The pairing decision as the specification words it, for either species:
count the arrival, then commit exactly when two hydrogens and one oxygen
are counted. -/
def spec_pairing_decision (a : atom) (w : World) : World :=
  if (spec_count_arrival a w).mem.hydrogens ≥ 2 ∧ (spec_count_arrival a w).mem.oxygens ≥ 1 then
    spec_commit (spec_count_arrival a w)
  else
    spec_no_commit (spec_count_arrival a w)

/-! ## Bond barrier -/

/-- The function `bond`; `none` when `bond_mutex` is not free (the caller
would block) or the counter overflows. -/
def bond (w : World) : Option World :=
  if w.sem.bond_mutex = 0 then none
  else do
    let bond ← int_result (w.mem.bond + 1)
    if bond = 3 then
      some { w with
        mem := { w.mem with bond := 0 }
        sem := { w.sem with
          barrier := w.sem.barrier + 1 + 1 + 1
          bond_mutex := w.sem.bond_mutex - 1 + 1 } }
    else
      some { w with
        mem := { w.mem with bond := bond }
        sem := { w.sem with bond_mutex := w.sem.bond_mutex - 1 + 1 } }

/-- Executes `n` calls of `bond` one after the other. -/
def bond_calls : Nat → World → Option World
  | 0, w => some w
  | n + 1, w => (bond_calls n w).bind bond

/-! ## Logger -/

/-- The function `print_to_file`, with `text` the message after formatting;
`none` when `print_mutex` is not free or `action_id` overflows. -/
def print_to_file (text : String) (w : World) : Option World :=
  if w.sem.print_mutex = 0 then none
  else do
    let stamp := w.mem.action_id
    let action_id ← int_result (w.mem.action_id + 1)
    some { w with
      mem := { w.mem with action_id := action_id }
      sem := { w.sem with print_mutex := w.sem.print_mutex - 1 + 1 }
      out := w.out ++ [{ stamp := stamp, text := text }] }

/-- Executes calls of `print_to_file` one after the other, in the order in
which they hold `print_mutex`; one text per call. -/
def print_calls : List String → World → Option World
  | [], w => some w
  | text :: rest, w => (print_to_file text w).bind (print_calls rest)

/-! ## Shutdown -/

/-- Subtraction of two `unsigned int` values. -/
def unsigned_sub (a b : Nat) : Nat := (a % UINT_RANGE + UINT_RANGE - b % UINT_RANGE) % UINT_RANGE

/-- One `sem_post(oxyQueue)`. -/
def post_oxyQueue (w : World) : World :=
  { w with sem := { w.sem with oxyQueue := w.sem.oxyQueue + 1 } }

/-- One `sem_post(hydroQueue)`. -/
def post_hydroQueue (w : World) : World :=
  { w with sem := { w.sem with hydroQueue := w.sem.hydroQueue + 1 } }

/-- Bound of the first loop of `shutdown_processes`. -/
def oxygen_release_bound (config : config_t) (w : World) : Nat :=
  unsigned_sub config.oxygen_amount (to_unsigned w.mem.max_molecules)

/-- Bound of the second loop of `shutdown_processes`; the product is computed
in `int`. -/
def hydrogen_release_bound (config : config_t) (w : World) : Option Nat :=
  (int_result (w.mem.max_molecules * 2)).map
    (fun doubled => unsigned_sub config.hydrogen_amount (to_unsigned doubled))

/-- The function `shutdown_processes`. -/
def shutdown_processes (config : config_t) (w : World) : Option World :=
  let w := { w with mem := { w.mem with shutdown := -1 } }
  let w := Nat.iterate post_oxyQueue (oxygen_release_bound config w) w
  (hydrogen_release_bound config w).map (fun n => Nat.iterate post_hydroQueue n w)

/-! ## Command line -/

/-- The function `isspace` of the C library, in the C locale. -/
def isspace (c : Char) : Bool :=
  c = ' ' ∨ (9 ≤ c.toNat ∧ c.toNat ≤ 13)

/-- Value of a decimal digit character. -/
def digit_value (c : Char) : Nat := c.toNat - 48

/-- Number written by a string of decimal digits. -/
def decimal_value (digits : List Char) : Nat :=
  digits.foldl (fun acc c => 10 * acc + digit_value c) 0

/-- The C library call `strtol(nptr, &end, 10)` on LP64, following the C
standard: the converted value and the unparsed rest `end`.  White space is
skipped, one sign is accepted, then the longest run of digits is converted; a
value out of range is clamped; without any digit the value is 0 and `end` is
`nptr`. -/
def strtol (nptr : List Char) : Int × List Char :=
  let s := nptr.dropWhile isspace
  let negative : Bool := s.head? = some '-'
  let s := match s with
    | '-' :: t => t
    | '+' :: t => t
    | _ => s
  let digits := s.takeWhile Char.isDigit
  if digits = [] then (0, nptr)
  else
    let value : Int := if negative then -(decimal_value digits : Int) else decimal_value digits
    (max LONG_MIN (min LONG_MAX value), s.dropWhile Char.isDigit)

/-- The loop of `valid_config` from index `i` on, `n` iterations: the error
code returned from inside the loop, or the values stored in `args`. -/
def valid_config_loop (argv : List (List Char)) : Nat → Nat → Except Int (List Int)
  | _, 0 => Except.ok []
  | i, n + 1 =>
    let parsed := strtol (argv.getD (i + 1) [])
    if parsed.2 ≠ [] then Except.error (-((i : Int) + 1))
    else if parsed.1 < 0 then Except.error (-((i : Int) + 1))
    else
      match valid_config_loop argv (i + 1) n with
      | Except.error code => Except.error code
      | Except.ok args => Except.ok (parsed.1 :: args)

/-- The function `valid_config`: the returned code and the contents of
`*config` afterwards.  `argv` holds the `argc` argument strings. -/
def valid_config (config : config_t) (argc : Int) (argv : List (List Char)) : Int × config_t :=
  if argc ≠ 5 then (-5, config)
  else
    match valid_config_loop argv 0 4 with
    | Except.error code => (code, config)
    | Except.ok args =>
      if args.getD 0 0 = 0 then (-1, config)
      else if args.getD 1 0 = 0 then (-2, config)
      else if args.getD 2 0 > 1000 then (-3, config)
      else if args.getD 3 0 > 1000 then (-4, config)
      else
        (0, { oxygen_amount := to_unsigned (args.getD 0 0)
              hydrogen_amount := to_unsigned (args.getD 1 0)
              wait_time := to_unsigned (args.getD 2 0)
              bond_time := to_unsigned (args.getD 3 0) })

/-! ## Processes

The atom processes and the parent process as a transition system.  A step
runs one statement of one process (the pairing critical section, `bond` and
`print_to_file` run in one step each); a process whose next statement is a
`sem_wait` on a semaphore of value 0 cannot step.  Every run of this system is
a run of the program: the scheduler may let a process run that long. -/

/-- Decimal digits of `n`, most significant first (`fuel` bounds their number). -/
def decimal_digits : Nat → Nat → List Char
  | 0, _ => []
  | fuel + 1, n =>
    if n < 10 then [Char.ofNat (48 + n)]
    else decimal_digits fuel (n / 10) ++ [Char.ofNat (48 + n % 10)]

/-- Text that the conversion `%d` of `fprintf` writes for an `int`. -/
def format_int (x : Int) : String :=
  if x < 0 then String.mk ('-' :: decimal_digits 10 x.natAbs)
  else String.mk (decimal_digits 10 x.toNat)

/-- Local state of an atom process: its species, the statement it executes
next, and its local variables `id` and `molecule`. -/
structure process_t where
  species : atom
  pc : Nat
  id : Int
  molecule : Int
deriving DecidableEq

/-- One step of a process running `oxygen_function`.  Statements: 0 takes the
id, 1 and 2 print, 3 `sem_wait(mutex)`, 4 the critical section,
5 `sem_wait(oxyQueue)`, 6 the shutdown test and the read of `molecule_id`,
7 prints, 8 posts `mol_created` twice, 9 prints, 10 `bond`,
11 `sem_wait(barrier)`, 12 the test for the last molecule,
13 `sem_post(mutex)`, 14 returned.  The `usleep` calls change no state. -/
def oxygen_function (p : process_t) (w : World) : Option (process_t × World) :=
  match p.pc with
  | 0 => (int_result (w.mem.oxygen_id + 1)).map (fun next =>
      ({ p with pc := 1, id := w.mem.oxygen_id },
       { w with mem := { w.mem with oxygen_id := next } }))
  | 1 => (print_to_file ("O " ++ format_int p.id ++ ": started\n") w).map
      (fun w' => ({ p with pc := 2 }, w'))
  | 2 => (print_to_file ("O " ++ format_int p.id ++ ": going to queue\n") w).map
      (fun w' => ({ p with pc := 3 }, w'))
  | 3 => if w.sem.mutex = 0 then none
      else some ({ p with pc := 4 }, { w with sem := { w.sem with mutex := w.sem.mutex - 1 } })
  | 4 => (oxygen_arrival w).map (fun w' => ({ p with pc := 5 }, w'))
  | 5 => if w.sem.oxyQueue = 0 then none
      else some ({ p with pc := 6 },
        { w with sem := { w.sem with oxyQueue := w.sem.oxyQueue - 1 } })
  | 6 => if w.mem.shutdown = -1 then
        (print_to_file ("O " ++ format_int p.id ++ ": not enough H\n") w).map
          (fun w' => ({ p with pc := 14 }, w'))
      else some ({ p with pc := 7, molecule := w.mem.molecule_id }, w)
  | 7 => (print_to_file
        ("O " ++ format_int p.id ++ ": creating molecule " ++ format_int p.molecule ++ "\n") w).map
      (fun w' => ({ p with pc := 8 }, w'))
  | 8 => some ({ p with pc := 9 },
      { w with sem := { w.sem with mol_created := w.sem.mol_created + 1 + 1 } })
  | 9 => (print_to_file
        ("O " ++ format_int p.id ++ ": molecule " ++ format_int p.molecule ++ " created\n") w).map
      (fun w' => ({ p with pc := 10 }, w'))
  | 10 => (bond w).map (fun w' => ({ p with pc := 11 }, w'))
  | 11 => if w.sem.barrier = 0 then none
      else some ({ p with pc := 12 },
        { w with sem := { w.sem with barrier := w.sem.barrier - 1 } })
  | 12 => if w.mem.molecule_id = w.mem.max_molecules then
        some ({ p with pc := 13 },
          { w with sem := { w.sem with release_function := w.sem.release_function + 1 } })
      else some ({ p with pc := 13 }, w)
  | 13 => some ({ p with pc := 14 }, { w with sem := { w.sem with mutex := w.sem.mutex + 1 } })
  | _ => none

/-- One step of a process running `hydrogen_function`.  Statements: 0 takes
the id, 1 and 2 print, 3 `sem_wait(mutex)`, 4 the critical section,
5 `sem_wait(hydroQueue)`, 6 the shutdown test and the read of `molecule_id`,
7 prints, 8 `sem_wait(mol_created)`, 9 prints, 10 `bond`,
11 `sem_wait(barrier)`, 12 returned. -/
def hydrogen_function (p : process_t) (w : World) : Option (process_t × World) :=
  match p.pc with
  | 0 => (int_result (w.mem.hydrogen_id + 1)).map (fun next =>
      ({ p with pc := 1, id := w.mem.hydrogen_id },
       { w with mem := { w.mem with hydrogen_id := next } }))
  | 1 => (print_to_file ("H " ++ format_int p.id ++ ": started\n") w).map
      (fun w' => ({ p with pc := 2 }, w'))
  | 2 => (print_to_file ("H " ++ format_int p.id ++ ": going to queue\n") w).map
      (fun w' => ({ p with pc := 3 }, w'))
  | 3 => if w.sem.mutex = 0 then none
      else some ({ p with pc := 4 }, { w with sem := { w.sem with mutex := w.sem.mutex - 1 } })
  | 4 => (hydrogen_arrival w).map (fun w' => ({ p with pc := 5 }, w'))
  | 5 => if w.sem.hydroQueue = 0 then none
      else some ({ p with pc := 6 },
        { w with sem := { w.sem with hydroQueue := w.sem.hydroQueue - 1 } })
  | 6 => if w.mem.shutdown = -1 then
        (print_to_file ("H " ++ format_int p.id ++ ": not enough O or H\n") w).map
          (fun w' => ({ p with pc := 12 }, w'))
      else some ({ p with pc := 7, molecule := w.mem.molecule_id }, w)
  | 7 => (print_to_file
        ("H " ++ format_int p.id ++ ": creating molecule " ++ format_int p.molecule ++ "\n") w).map
      (fun w' => ({ p with pc := 8 }, w'))
  | 8 => if w.sem.mol_created = 0 then none
      else some ({ p with pc := 9 },
        { w with sem := { w.sem with mol_created := w.sem.mol_created - 1 } })
  | 9 => (print_to_file
        ("H " ++ format_int p.id ++ ": molecule " ++ format_int p.molecule ++ " created\n") w).map
      (fun w' => ({ p with pc := 10 }, w'))
  | 10 => (bond w).map (fun w' => ({ p with pc := 11 }, w'))
  | 11 => if w.sem.barrier = 0 then none
      else some ({ p with pc := 12 },
        { w with sem := { w.sem with barrier := w.sem.barrier - 1 } })
  | _ => none

/-- The parent and its children: the shared state, the statement the parent
executes next in `main` after the forks (0 waits for `release_function`
unless `max_molecules` is 0, 1 calls `shutdown_processes`, 2 waits for the
children), and the children in the order of their creation. -/
structure system_t where
  shared : World
  main_pc : Nat
  children : List process_t
deriving DecidableEq

/-- State after the forks of `main`: `oxygen_amount` children run
`oxygen_function`, the following `hydrogen_amount` run `hydrogen_function`. -/
def spawn (config : config_t) : system_t :=
  { shared := start config
    main_pc := 0
    children :=
      List.replicate config.oxygen_amount { species := atom.O, pc := 0, id := 0, molecule := 0 }
      ++ List.replicate config.hydrogen_amount
          { species := atom.H, pc := 0, id := 0, molecule := 0 } }

/-- One step of the parent in `main`, after the forks. -/
def main_step (config : config_t) (s : system_t) : Option system_t :=
  match s.main_pc with
  | 0 =>
    if s.shared.mem.max_molecules ≠ 0 then
      if s.shared.sem.release_function = 0 then none
      else some { s with
        main_pc := 1
        shared := { s.shared with
          sem := { s.shared.sem with
            release_function := s.shared.sem.release_function - 1 } } }
    else some { s with main_pc := 1 }
  | 1 => (shutdown_processes config s.shared).map (fun w => { s with main_pc := 2, shared := w })
  | _ => none

/-- One step of the system: process 0 is the parent, process `k + 1` the
child created `k`-th (counting from 0). -/
def step (config : config_t) (who : Nat) (s : system_t) : Option system_t :=
  match who with
  | 0 => main_step config s
  | k + 1 =>
    match s.children.get? k with
    | none => none
    | some p =>
      let moved : Option (process_t × World) :=
        match p.species with
        | atom.O => oxygen_function p s.shared
        | atom.H => hydrogen_function p s.shared
      moved.map (fun r => { s with shared := r.2, children := s.children.set k r.1 })

/-- Runs the processes in the order given by a schedule; `none` when a
scheduled process cannot step. -/
def run (config : config_t) : List Nat → system_t → Option system_t
  | [], s => some s
  | who :: rest, s => (step config who s).bind (run config rest)

/-- A schedule that lets process `who` execute `n` statements in a row. -/
def burst (who n : Nat) : List Nat := List.replicate n who

/-- A complete run of `./proj2 3 6 0 0` (the parent is process 0, the oxygens
are processes 1 to 3, the hydrogens 4 to 9).
Round 1: hydrogens 4 and 5 queue up, oxygen 1 commits molecule 1; the three
atoms bond, oxygen 1 takes one of the three barrier tokens and posts the
mutex, while hydrogens 4 and 5 have not yet reached `sem_wait(barrier)`.
Round 2: hydrogens 6 and 7 queue up, oxygen 2 commits molecule 2, bonds, takes
a barrier token left from round 1 and posts the mutex; hydrogens 6 and 7 are
still blocked in `sem_wait(hydroQueue)`.
Round 3: hydrogens 8 and 9 queue up, oxygen 3 commits molecule 3; then all the
hydrogens run to their end, oxygen 3 finishes, and the parent shuts down. -/
def interleaved_schedule : List Nat :=
  burst 4 5 ++ burst 5 5 ++ burst 1 5
  ++ burst 1 6 ++ burst 4 6 ++ burst 5 6 ++ burst 1 3
  ++ burst 6 5 ++ burst 7 5 ++ burst 2 5
  ++ burst 2 9
  ++ burst 8 5 ++ burst 9 5 ++ burst 3 5
  ++ burst 3 3
  ++ burst 6 6 ++ burst 3 3 ++ burst 7 6 ++ burst 8 6 ++ burst 9 6
  ++ burst 4 1 ++ burst 5 1 ++ burst 6 1 ++ burst 7 1 ++ burst 8 1 ++ burst 9 1
  ++ burst 3 3 ++ burst 0 2

/-- Contents of `proj2.out` after the run `interleaved_schedule`, line by
line without the stamps. -/
def interleaved_output : List String :=
  ["H 1: started\n", "H 1: going to queue\n",
   "H 2: started\n", "H 2: going to queue\n",
   "O 1: started\n", "O 1: going to queue\n",
   "O 1: creating molecule 1\n", "O 1: molecule 1 created\n",
   "H 1: creating molecule 1\n", "H 1: molecule 1 created\n",
   "H 2: creating molecule 1\n", "H 2: molecule 1 created\n",
   "H 3: started\n", "H 3: going to queue\n",
   "H 4: started\n", "H 4: going to queue\n",
   "O 2: started\n", "O 2: going to queue\n",
   "O 2: creating molecule 2\n", "O 2: molecule 2 created\n",
   "H 5: started\n", "H 5: going to queue\n",
   "H 6: started\n", "H 6: going to queue\n",
   "O 3: started\n", "O 3: going to queue\n",
   "O 3: creating molecule 3\n",
   "H 3: creating molecule 3\n", "H 3: molecule 3 created\n",
   "O 3: molecule 3 created\n",
   "H 4: creating molecule 3\n", "H 4: molecule 3 created\n",
   "H 5: creating molecule 3\n", "H 5: molecule 3 created\n",
   "H 6: creating molecule 3\n", "H 6: molecule 3 created\n"]

/-- Number of lines that end with the given text. -/
def lines_ending (ending : String) (texts : List String) : Nat :=
  (texts.filter (fun t => ending.data.isSuffixOf t.data)).length

/-! ## Random delays -/

/-- Remainder of two `unsigned int` values; a zero divisor is undefined
behaviour. -/
def unsigned_rem (a b : Nat) : Option Nat :=
  if b % UINT_RANGE = 0 then none else some (a % UINT_RANGE % (b % UINT_RANGE))

/-- Sum of two `unsigned int` values. -/
def unsigned_add (a b : Nat) : Nat := (a + b) % UINT_RANGE

/-- Product of two `unsigned int` values. -/
def unsigned_mul (a b : Nat) : Nat := (a * b) % UINT_RANGE

/-- The function `random_number`; `r` is the `int` that the call of `rand()`
returns (the call is made only when `value` is not 0). -/
def random_number (r : Int) (value : Nat) : Option Nat :=
  if value = 0 then some 0
  else (unsigned_rem (to_unsigned r) value).map (fun m => unsigned_add m 1)

/-- Argument of the calls `usleep(random_number(...)*1000)` of
`oxygen_function` and `hydrogen_function`, in microseconds. -/
def usleep_argument (r : Int) (max_time : Nat) : Option Nat :=
  (random_number r max_time).map (fun n => unsigned_mul n 1000)

/-- A complete run of `./proj2 3 6 0 0` that starts as `interleaved_schedule`
does, up to the third commit.  Then hydrogen 6 (paired in round 2) and oxygen
3 bond, which completes a round of the barrier counter; oxygen 3 takes a
barrier token, posts `release_function` and the mutex; the parent wakes and
calls `shutdown_processes`; hydrogens 7, 8 and 9, admitted by the pairings of
rounds 2 and 3, wake from `sem_wait(hydroQueue)` only now; last, hydrogens 4,
5 and 6 leave the barrier. -/
def shutdown_race_schedule : List Nat :=
  burst 4 5 ++ burst 5 5 ++ burst 1 5
  ++ burst 1 6 ++ burst 4 6 ++ burst 5 6 ++ burst 1 3
  ++ burst 6 5 ++ burst 7 5 ++ burst 2 5
  ++ burst 2 9
  ++ burst 8 5 ++ burst 9 5 ++ burst 3 5
  ++ burst 3 3
  ++ burst 6 6 ++ burst 3 3
  ++ burst 3 3 ++ burst 0 2
  ++ burst 7 2 ++ burst 8 2 ++ burst 9 2
  ++ burst 4 1 ++ burst 5 1 ++ burst 6 1

/-- Contents of `proj2.out` after the run `shutdown_race_schedule`, line by
line without the stamps. -/
def shutdown_race_output : List String :=
  ["H 1: started\n", "H 1: going to queue\n",
   "H 2: started\n", "H 2: going to queue\n",
   "O 1: started\n", "O 1: going to queue\n",
   "O 1: creating molecule 1\n", "O 1: molecule 1 created\n",
   "H 1: creating molecule 1\n", "H 1: molecule 1 created\n",
   "H 2: creating molecule 1\n", "H 2: molecule 1 created\n",
   "H 3: started\n", "H 3: going to queue\n",
   "H 4: started\n", "H 4: going to queue\n",
   "O 2: started\n", "O 2: going to queue\n",
   "O 2: creating molecule 2\n", "O 2: molecule 2 created\n",
   "H 5: started\n", "H 5: going to queue\n",
   "H 6: started\n", "H 6: going to queue\n",
   "O 3: started\n", "O 3: going to queue\n",
   "O 3: creating molecule 3\n",
   "H 3: creating molecule 3\n", "H 3: molecule 3 created\n",
   "O 3: molecule 3 created\n",
   "H 4: not enough O or H\n", "H 5: not enough O or H\n",
   "H 6: not enough O or H\n"]

/-! ## Theorems -/

/-- A signed computation has the result `y` exactly when its mathematical
value is representable and is `y`. -/
theorem int_result_eq_some (x y : Int) :
    int_result x = some y ↔ (INT_MIN ≤ x ∧ x ≤ INT_MAX) ∧ y = x := by
  unfold int_result
  split
  · rename_i h
    simp [h, eq_comm]
  · rename_i h
    simp [h]

/-- A representable value is the result of the computation. -/
theorem int_result_of_range (x : Int) (h1 : INT_MIN ≤ x) (h2 : x ≤ INT_MAX) :
    int_result x = some x := by
  unfold int_result
  rw [if_pos ⟨h1, h2⟩]

/-- What a completed oxygen critical section did: either the commit branch or
the branch that only releases the mutex. -/
theorem oxygen_arrival_spec (w w' : World) (h : oxygen_arrival w = some w') :
    (w.mem.hydrogens ≥ 2 ∧ w.mem.oxygens + 1 ≤ INT_MAX ∧ w.mem.molecule_id + 1 ≤ INT_MAX ∧
      w' = { w with
        mem := { w.mem with molecule_id := w.mem.molecule_id + 1, hydrogens := w.mem.hydrogens - 2,
                            oxygens := w.mem.oxygens + 1 - 1 }
        sem := { w.sem with hydroQueue := w.sem.hydroQueue + 1 + 1, oxyQueue := w.sem.oxyQueue + 1 } }) ∨
    (¬ w.mem.hydrogens ≥ 2 ∧ w.mem.oxygens + 1 ≤ INT_MAX ∧
      w' = { w with
        mem := { w.mem with oxygens := w.mem.oxygens + 1 }
        sem := { w.sem with mutex := w.sem.mutex + 1 } }) := by
  unfold oxygen_arrival at h
  simp only [Option.bind_eq_bind, Option.bind_eq_some, int_result_eq_some] at h
  obtain ⟨o1, ⟨hr, rfl⟩, h⟩ := h
  split at h
  · rename_i hh
    simp only [Option.bind_eq_bind, Option.bind_eq_some, int_result_eq_some] at h
    obtain ⟨m1, ⟨hm, rfl⟩, h1, ⟨_, rfl⟩, o2, ⟨_, rfl⟩, h⟩ := h
    left
    simp only [Option.some.injEq] at h
    exact ⟨hh, hr.2, hm.2, h.symm⟩
  · rename_i hh
    right
    simp only [Option.some.injEq] at h
    exact ⟨hh, hr.2, h.symm⟩

/-- What a completed hydrogen critical section did. -/
theorem hydrogen_arrival_spec (w w' : World) (h : hydrogen_arrival w = some w') :
    ((w.mem.hydrogens + 1 ≥ 2 ∧ w.mem.oxygens ≥ 1) ∧ w.mem.hydrogens + 1 ≤ INT_MAX ∧
      w.mem.molecule_id + 1 ≤ INT_MAX ∧
      w' = { w with
        mem := { w.mem with molecule_id := w.mem.molecule_id + 1,
                            hydrogens := w.mem.hydrogens + 1 - 2,
                            oxygens := w.mem.oxygens - 1 }
        sem := { w.sem with hydroQueue := w.sem.hydroQueue + 1 + 1, oxyQueue := w.sem.oxyQueue + 1 } }) ∨
    (¬ (w.mem.hydrogens + 1 ≥ 2 ∧ w.mem.oxygens ≥ 1) ∧ w.mem.hydrogens + 1 ≤ INT_MAX ∧
      w' = { w with
        mem := { w.mem with hydrogens := w.mem.hydrogens + 1 }
        sem := { w.sem with mutex := w.sem.mutex + 1 } }) := by
  unfold hydrogen_arrival at h
  simp only [Option.bind_eq_bind, Option.bind_eq_some, int_result_eq_some] at h
  obtain ⟨h1, ⟨hr, rfl⟩, h⟩ := h
  split at h
  · rename_i hh
    simp only [Option.bind_eq_bind, Option.bind_eq_some, int_result_eq_some] at h
    obtain ⟨m1, ⟨hm, rfl⟩, h2, ⟨_, rfl⟩, o2, ⟨_, rfl⟩, h⟩ := h
    left
    simp only [Option.some.injEq] at h
    exact ⟨hh, hr.2, hm.2, h.symm⟩
  · rename_i hh
    right
    simp only [Option.some.injEq] at h
    exact ⟨hh, hr.2, h.symm⟩

/-- The oxygen critical section is defined whenever the counters are
non-negative and below `INT_MAX`. -/
theorem oxygen_arrival_defined (w : World)
    (ho : 0 ≤ w.mem.oxygens ∧ w.mem.oxygens < INT_MAX)
    (hh : 0 ≤ w.mem.hydrogens ∧ w.mem.hydrogens ≤ INT_MAX)
    (hm : 0 ≤ w.mem.molecule_id ∧ w.mem.molecule_id < INT_MAX) :
    ∃ w', oxygen_arrival w = some w' := by
  simp only [INT_MAX] at ho hh hm
  unfold oxygen_arrival
  rw [int_result_of_range _ (by simp only [INT_MIN]; omega) (by simp only [INT_MAX]; omega)]
  simp only [Option.bind_eq_bind, Option.some_bind]
  split
  · rw [int_result_of_range _ (by simp only [INT_MIN]; omega) (by simp only [INT_MAX]; omega),
      Option.some_bind,
      int_result_of_range _ (by simp only [INT_MIN]; omega) (by simp only [INT_MAX]; omega),
      Option.some_bind,
      int_result_of_range _ (by simp only [INT_MIN]; omega) (by simp only [INT_MAX]; omega),
      Option.some_bind]
    exact ⟨_, rfl⟩
  · exact ⟨_, rfl⟩

/-- The hydrogen critical section is defined whenever the counters are
non-negative and below `INT_MAX`. -/
theorem hydrogen_arrival_defined (w : World)
    (ho : 0 ≤ w.mem.oxygens ∧ w.mem.oxygens ≤ INT_MAX)
    (hh : 0 ≤ w.mem.hydrogens ∧ w.mem.hydrogens < INT_MAX)
    (hm : 0 ≤ w.mem.molecule_id ∧ w.mem.molecule_id < INT_MAX) :
    ∃ w', hydrogen_arrival w = some w' := by
  simp only [INT_MAX] at ho hh hm
  unfold hydrogen_arrival
  rw [int_result_of_range _ (by simp only [INT_MIN]; omega) (by simp only [INT_MAX]; omega)]
  simp only [Option.bind_eq_bind, Option.some_bind]
  split
  · rename_i hc
    rw [int_result_of_range _ (by simp only [INT_MIN]; omega) (by simp only [INT_MAX]; omega),
      Option.some_bind,
      int_result_of_range _ (by simp only [INT_MIN]; omega) (by simp only [INT_MAX]; omega),
      Option.some_bind,
      int_result_of_range _ (by simp only [INT_MIN]; omega) (by simp only [INT_MAX]; omega),
      Option.some_bind]
    exact ⟨_, rfl⟩
  · exact ⟨_, rfl⟩

/-- Effect of one completed critical section on the three pairing counters. -/
theorem arrival_counters (a : atom) (w w' : World) (h : arrival a w = some w')
    (ho : 0 ≤ w.mem.oxygens) (hh : 0 ≤ w.mem.hydrogens)
    (hp : w.mem.hydrogens < 2 ∨ w.mem.oxygens < 1) :
    0 ≤ w'.mem.oxygens ∧ 0 ≤ w'.mem.hydrogens ∧
    (w'.mem.hydrogens < 2 ∨ w'.mem.oxygens < 1) ∧
    (w'.mem.molecule_id = w.mem.molecule_id ∨ w'.mem.molecule_id = w.mem.molecule_id + 1) ∧
    w'.mem.oxygens + w'.mem.molecule_id
      = w.mem.oxygens + w.mem.molecule_id + (if a = atom.O then 1 else 0) ∧
    w'.mem.hydrogens + 2 * w'.mem.molecule_id
      = w.mem.hydrogens + 2 * w.mem.molecule_id + (if a = atom.H then 1 else 0) := by
  cases a
  · rcases oxygen_arrival_spec w w' h with ⟨c, _, _, rfl⟩ | ⟨c, _, rfl⟩
    · simp
      omega
    · simp
      omega
  · rcases hydrogen_arrival_spec w w' h with ⟨c, _, _, rfl⟩ | ⟨c, _, rfl⟩
    · simp
      omega
    · simp
      omega

/-- Counters after a completed run of arrivals, from a state in which no
pairing is pending. -/
theorem arrivals_counters (order : List atom) :
    ∀ (w w' : World), arrivals order w = some w' →
      0 ≤ w.mem.oxygens → 0 ≤ w.mem.hydrogens →
      (w.mem.hydrogens < 2 ∨ w.mem.oxygens < 1) →
      0 ≤ w'.mem.oxygens ∧ 0 ≤ w'.mem.hydrogens ∧
      (w'.mem.hydrogens < 2 ∨ w'.mem.oxygens < 1) ∧
      w.mem.molecule_id ≤ w'.mem.molecule_id ∧
      w'.mem.oxygens + w'.mem.molecule_id
        = w.mem.oxygens + w.mem.molecule_id + (order.count atom.O : Nat) ∧
      w'.mem.hydrogens + 2 * w'.mem.molecule_id
        = w.mem.hydrogens + 2 * w.mem.molecule_id + (order.count atom.H : Nat) := by
  induction order with
  | nil =>
    intro w w' h ho hh hp
    simp only [arrivals, Option.some.injEq] at h
    subst h
    simp [ho, hh, hp]
  | cons a rest ih =>
    intro w w' h ho hh hp
    simp only [arrivals, Option.bind_eq_some] at h
    obtain ⟨w1, h1, h2⟩ := h
    obtain ⟨a1, a2, a3, a4, a5, a6⟩ := arrival_counters a w w1 h1 ho hh hp
    obtain ⟨b1, b2, b3, b4, b5, b6⟩ := ih w1 w' h2 a1 a2 a3
    refine ⟨b1, b2, b3, by omega, ?_, ?_⟩
    · cases a
      · simp only [List.count_cons_self, reduceIte] at a5 ⊢
        push_cast
        omega
      · simp only [reduceCtorEq, reduceIte] at a5
        rw [List.count_cons_of_ne (by decide)]
        omega
    · cases a
      · simp only [reduceCtorEq, reduceIte] at a6
        rw [List.count_cons_of_ne (by decide)]
        omega
      · simp only [List.count_cons_self, reduceIte] at a6 ⊢
        push_cast
        omega

/-- A run of arrivals is defined when the counters cannot leave the range of
`int` within the remaining number of steps. -/
theorem arrivals_defined (order : List atom) :
    ∀ (w : World), 0 ≤ w.mem.oxygens → 0 ≤ w.mem.hydrogens → 0 ≤ w.mem.molecule_id →
      w.mem.oxygens + (order.length : Nat) ≤ INT_MAX →
      w.mem.hydrogens + (order.length : Nat) ≤ INT_MAX →
      w.mem.molecule_id + (order.length : Nat) ≤ INT_MAX →
      ∃ w', arrivals order w = some w' := by
  induction order with
  | nil =>
    intro w _ _ _ _ _ _
    exact ⟨w, rfl⟩
  | cons a rest ih =>
    intro w ho hh hm bo bh bm
    simp only [List.length_cons, Nat.cast_add, Nat.cast_one, INT_MAX] at bo bh bm
    have hd : ∃ w1, arrival a w = some w1 := by
      cases a
      · exact oxygen_arrival_defined w ⟨ho, by simp only [INT_MAX]; omega⟩
          ⟨hh, by simp only [INT_MAX]; omega⟩ ⟨hm, by simp only [INT_MAX]; omega⟩
      · exact hydrogen_arrival_defined w ⟨ho, by simp only [INT_MAX]; omega⟩
          ⟨hh, by simp only [INT_MAX]; omega⟩ ⟨hm, by simp only [INT_MAX]; omega⟩
    obtain ⟨w1, h1⟩ := hd
    have e : (w1.mem.oxygens ≤ w.mem.oxygens + 1 ∧ 0 ≤ w1.mem.oxygens) ∧
        (w1.mem.hydrogens ≤ w.mem.hydrogens + 1 ∧ 0 ≤ w1.mem.hydrogens) ∧
        (w1.mem.molecule_id ≤ w.mem.molecule_id + 1 ∧ 0 ≤ w1.mem.molecule_id) := by
      cases a
      · rcases oxygen_arrival_spec w w1 h1 with ⟨c, _, _, rfl⟩ | ⟨c, _, rfl⟩
        · simp only
          omega
        · simp only
          omega
      · rcases hydrogen_arrival_spec w w1 h1 with ⟨c, _, _, rfl⟩ | ⟨c, _, rfl⟩
        · simp only
          omega
        · simp only
          omega
    obtain ⟨w2, h2⟩ := ih w1 e.1.2 e.2.1.2 e.2.2.2
      (by simp only [INT_MAX]; omega) (by simp only [INT_MAX]; omega)
      (by simp only [INT_MAX]; omega)
    exact ⟨w2, by simp only [arrivals, h1, Option.some_bind, h2]⟩

/-- The ids handed out along a completed run are consecutive, starting right
after the initial value of `molecule_id`. -/
theorem ids_handed_out_consecutive (order : List atom) :
    ∀ (w w' : World), arrivals order w = some w' →
      0 ≤ w.mem.oxygens → 0 ≤ w.mem.hydrogens →
      (w.mem.hydrogens < 2 ∨ w.mem.oxygens < 1) →
      ids_handed_out order w
        = (List.range (w'.mem.molecule_id - w.mem.molecule_id).toNat).map
            (fun (i : Nat) => w.mem.molecule_id + ((i : Int) + 1)) := by
  induction order with
  | nil =>
    intro w w' h _ _ _
    simp only [arrivals, Option.some.injEq] at h
    subst h
    simp [ids_handed_out]
  | cons a rest ih =>
    intro w w' h ho hh hp
    simp only [arrivals, Option.bind_eq_some] at h
    obtain ⟨w1, h1, h2⟩ := h
    obtain ⟨a1, a2, a3, a4, _, _⟩ := arrival_counters a w w1 h1 ho hh hp
    obtain ⟨_, _, _, b4, _, _⟩ := arrivals_counters rest w1 w' h2 a1 a2 a3
    have r := ih w1 w' h2 a1 a2 a3
    simp only [ids_handed_out, h1]
    rcases a4 with e | e
    · rw [if_pos e, r, e]
    · rw [if_neg (by omega), r]
      have hn : (w'.mem.molecule_id - w.mem.molecule_id).toNat
          = (w'.mem.molecule_id - w1.mem.molecule_id).toNat + 1 := by omega
      rw [hn, List.range_succ_eq_map, List.map_cons, List.map_map, e]
      congr 1
      apply List.map_congr_left
      intro i _
      simp only [Function.comp_apply, Nat.succ_eq_add_one, Nat.cast_add, Nat.cast_one]
      omega

/-- C1: for every order of arrivals, executed from the state set up at start,
`molecule_id` grows by at most 1 per critical section, the ids handed out are
1, 2, ..., n in this order, and after all arrivals `molecule_id` is
n = min(O, H / 2), where O and H are the numbers of oxygen and hydrogen arrivals.
The run is defined (no signed overflow) for up to `INT_MAX` arrivals. -/
theorem pairing_molecule_ids (config : config_t) (order : List atom) :
    (∀ (a : atom) (w w' : World), arrival a w = some w' →
        w'.mem.molecule_id = w.mem.molecule_id ∨
        w'.mem.molecule_id = w.mem.molecule_id + 1) ∧
    (∀ w : World, arrivals order (start config) = some w →
        w.mem.molecule_id
          = ((min (order.count atom.O) (order.count atom.H / 2) : Nat) : Int) ∧
        ids_handed_out order (start config)
          = first_ids (min (order.count atom.O) (order.count atom.H / 2))) ∧
    ((order.length : Int) ≤ INT_MAX → ∃ w : World, arrivals order (start config) = some w) := by
  refine ⟨?_, ?_, ?_⟩
  · intro a w w' h
    cases a
    · rcases oxygen_arrival_spec w w' h with ⟨_, _, _, rfl⟩ | ⟨_, _, rfl⟩
      · exact Or.inr rfl
      · exact Or.inl rfl
    · rcases hydrogen_arrival_spec w w' h with ⟨_, _, _, rfl⟩ | ⟨_, _, rfl⟩
      · exact Or.inr rfl
      · exact Or.inl rfl
  · intro w h
    have z1 : (start config).mem.oxygens = 0 := rfl
    have z2 : (start config).mem.hydrogens = 0 := rfl
    have z3 : (start config).mem.molecule_id = 0 := rfl
    obtain ⟨b1, b2, b3, b4, b5, b6⟩ := arrivals_counters order (start config) w h
      (by rw [z1]) (by rw [z2]) (by rw [z2]; left; decide)
    have r := ids_handed_out_consecutive order (start config) w h
      (by rw [z1]) (by rw [z2]) (by rw [z2]; left; decide)
    rw [z1, z3] at b5
    rw [z2, z3] at b6
    rw [z3] at b4 r
    have hm : w.mem.molecule_id
        = ((min (order.count atom.O) (order.count atom.H / 2) : Nat) : Int) := by
      omega
    refine ⟨hm, ?_⟩
    rw [r, hm, sub_zero, Int.toNat_ofNat]
    simp [first_ids]
  · intro hl
    have z1 : (start config).mem.oxygens = 0 := rfl
    have z2 : (start config).mem.hydrogens = 0 := rfl
    have z3 : (start config).mem.molecule_id = 0 := rfl
    exact arrivals_defined order (start config) (by rw [z1]) (by rw [z2]) (by rw [z3])
      (by rw [z1]; simpa using hl) (by rw [z2]; simpa using hl) (by rw [z3]; simpa using hl)

/-- Witness of C1: one oxygen and two hydrogens, the oxygen arriving between
the hydrogens, end with `molecule_id = 1` and the single id 1 handed out. -/
theorem pairing_molecule_ids_witness :
    ∃ w : World, arrivals [atom.H, atom.O, atom.H] (start ⟨1, 2, 0, 0⟩) = some w ∧
      w.mem.molecule_id = 1 ∧
      ids_handed_out [atom.H, atom.O, atom.H] (start ⟨1, 2, 0, 0⟩) = [1] := by
  obtain ⟨_, h2, h3⟩ := pairing_molecule_ids ⟨1, 2, 0, 0⟩ [atom.H, atom.O, atom.H]
  obtain ⟨w, hw⟩ := h3 (by decide)
  obtain ⟨e1, e2⟩ := h2 w hw
  exact ⟨w, hw, by rw [e1]; decide, by rw [e2]; decide⟩

/-! ### Number of molecules computed at start -/

/-- Below `2 ^ 31` hydrogens the cast in `init_shared_memory` is harmless and
`max_molecules` is min(oxygen_amount, hydrogen_amount / 2). -/
theorem init_shared_memory_max_molecules (config : config_t)
    (h : config.hydrogen_amount < 2147483648) :
    (init_shared_memory config).max_molecules
      = ((min config.oxygen_amount (config.hydrogen_amount / 2) : Nat) : Int) := by
  simp only [init_shared_memory, to_int, UINT_RANGE]
  split
  · rename_i c
    rw [Nat.mod_eq_of_lt (by omega), if_pos (by omega), Int.tdiv_eq_ediv (by omega) (by omega)]
    omega
  · rename_i c
    rw [Nat.mod_eq_of_lt (by omega), if_pos (by omega)]
    omega

/-- C2 fails on the code: the accepted command line
`./proj2 1073741825 2147483648 0 0` stores these two amounts, for which
`init_shared_memory` casts the hydrogen amount to `int` before halving it and
sets `max_molecules` to -1073741824, while min(oxygen_amount,
hydrogen_amount / 2) is 1073741824. -/
theorem init_shared_memory_max_molecules_cast :
    valid_config ⟨0, 0, 0, 0⟩ 5
        ["./proj2".toList, "1073741825".toList, "2147483648".toList, "0".toList, "0".toList]
      = (0, ⟨1073741825, 2147483648, 0, 0⟩) ∧
    (init_shared_memory ⟨1073741825, 2147483648, 0, 0⟩).max_molecules = -1073741824 ∧
    min 1073741825 (2147483648 / 2) = 1073741824 := by
  decide

/-! ### Pairing invariant and pairing decision -/

/-- C4: the pairing invariant holds in the initial shared state and every
completed critical section, of an oxygen or of a hydrogen, in either branch,
preserves it; the critical section completes whenever the three counters are
below `INT_MAX` (and `molecule_id` is not negative). -/
theorem pairing_invariant_preserved (config : config_t) :
    pairing_invariant (start config) ∧
    (∀ (a : atom) (w w' : World), pairing_invariant w → arrival a w = some w' →
        pairing_invariant w') ∧
    (∀ (a : atom) (w : World), pairing_invariant w →
        w.mem.oxygens < INT_MAX → w.mem.hydrogens < INT_MAX →
        0 ≤ w.mem.molecule_id → w.mem.molecule_id < INT_MAX →
        ∃ w' : World, arrival a w = some w') := by
  refine ⟨?_, ?_, ?_⟩
  · simp [pairing_invariant, start, init_shared_memory]
  · intro a w w' hi h
    obtain ⟨b1, b2, b3, _⟩ := arrival_counters a w w' h hi.1 hi.2.1 hi.2.2
    exact ⟨b1, b2, b3⟩
  · intro a w hi ho hh hm0 hm
    cases a
    · exact oxygen_arrival_defined w ⟨hi.1, ho⟩ ⟨hi.2.1, le_of_lt hh⟩ ⟨hm0, hm⟩
    · exact hydrogen_arrival_defined w ⟨hi.1, le_of_lt ho⟩ ⟨hi.2.1, hh⟩ ⟨hm0, hm⟩

/-- Witness of C4: a hydrogen that arrives while one oxygen and one hydrogen
wait (and holds the mutex) commits a pairing and leaves the invariant in
place. -/
theorem pairing_invariant_preserved_witness :
    pairing_invariant
      { mem := { init_shared_memory ⟨1, 2, 0, 0⟩ with oxygens := 1, hydrogens := 1 },
        sem := { open_semaphores with mutex := 0 }, out := [] } ∧
    arrival atom.H
        { mem := { init_shared_memory ⟨1, 2, 0, 0⟩ with oxygens := 1, hydrogens := 1 },
          sem := { open_semaphores with mutex := 0 }, out := [] }
      = some { mem := { init_shared_memory ⟨1, 2, 0, 0⟩ with molecule_id := 1 },
               sem := { open_semaphores with mutex := 0, hydroQueue := 2, oxyQueue := 1 },
               out := [] } ∧
    pairing_invariant
      { mem := { init_shared_memory ⟨1, 2, 0, 0⟩ with molecule_id := 1 },
        sem := { open_semaphores with mutex := 0, hydroQueue := 2, oxyQueue := 1 },
        out := [] } := by
  have hi : pairing_invariant
      { mem := { init_shared_memory ⟨1, 2, 0, 0⟩ with oxygens := 1, hydrogens := 1 },
        sem := { open_semaphores with mutex := 0 }, out := [] } := by
    simp [pairing_invariant]
  have hw : arrival atom.H
        { mem := { init_shared_memory ⟨1, 2, 0, 0⟩ with oxygens := 1, hydrogens := 1 },
          sem := { open_semaphores with mutex := 0 }, out := [] }
      = some { mem := { init_shared_memory ⟨1, 2, 0, 0⟩ with molecule_id := 1 },
               sem := { open_semaphores with mutex := 0, hydroQueue := 2, oxyQueue := 1 },
               out := [] } := by decide
  exact ⟨hi, hw, (pairing_invariant_preserved ⟨1, 2, 0, 0⟩).2.1 atom.H _ _ hi hw⟩

/-- C5: from a state with non-negative counters, a completed critical section
of either species is the pairing decision of the specification: the arrival is
counted, then a pairing is committed exactly when `hydrogens >= 2`
and `oxygens >= 1` hold; a commit adds 1 to `molecule_id`, takes 2 from
`hydrogens` and 1 from `oxygens`, posts 2 tokens on the hydrogen queue and 1
on the oxygen queue and keeps the mutex; a non-commit only releases the
mutex.  The critical section completes whenever the counters are below
`INT_MAX`. -/
theorem arrival_is_pairing_decision (a : atom) (w : World)
    (ho : 0 ≤ w.mem.oxygens) (hh : 0 ≤ w.mem.hydrogens) :
    (∀ w' : World, arrival a w = some w' → w' = spec_pairing_decision a w) ∧
    (w.mem.oxygens < INT_MAX → w.mem.hydrogens < INT_MAX →
        0 ≤ w.mem.molecule_id → w.mem.molecule_id < INT_MAX →
        arrival a w = some (spec_pairing_decision a w)) := by
  have key : ∀ w' : World, arrival a w = some w' → w' = spec_pairing_decision a w := by
    intro w' h
    cases a
    · rcases oxygen_arrival_spec w w' h with ⟨c, _, _, rfl⟩ | ⟨c, _, rfl⟩
      · have hc : w.mem.hydrogens ≥ 2 ∧ w.mem.oxygens + 1 ≥ 1 := ⟨c, by omega⟩
        simp only [spec_pairing_decision, spec_count_arrival, if_pos hc, spec_commit]
      · have hc : ¬ (w.mem.hydrogens ≥ 2 ∧ w.mem.oxygens + 1 ≥ 1) := fun x => c x.1
        simp only [spec_pairing_decision, spec_count_arrival, if_neg hc, spec_no_commit]
    · rcases hydrogen_arrival_spec w w' h with ⟨c, _, _, rfl⟩ | ⟨c, _, rfl⟩
      · simp only [spec_pairing_decision, spec_count_arrival, if_pos c, spec_commit]
      · simp only [spec_pairing_decision, spec_count_arrival, if_neg c, spec_no_commit]
  refine ⟨key, ?_⟩
  intro bo bh hm0 hm
  have hd : ∃ w', arrival a w = some w' := by
    cases a
    · exact oxygen_arrival_defined w ⟨ho, bo⟩ ⟨hh, le_of_lt bh⟩ ⟨hm0, hm⟩
    · exact hydrogen_arrival_defined w ⟨ho, le_of_lt bo⟩ ⟨hh, bh⟩ ⟨hm0, hm⟩
  obtain ⟨w', hw'⟩ := hd
  rw [hw', key w' hw']

/-- Witness of C5: an oxygen that holds the mutex in the start state is
counted and releases the mutex without committing. -/
theorem arrival_is_pairing_decision_witness :
    arrival atom.O
        { mem := init_shared_memory ⟨1, 2, 0, 0⟩,
          sem := { open_semaphores with mutex := 0 }, out := [] }
      = some (spec_pairing_decision atom.O
        { mem := init_shared_memory ⟨1, 2, 0, 0⟩,
          sem := { open_semaphores with mutex := 0 }, out := [] }) ∧
    spec_pairing_decision atom.O
        { mem := init_shared_memory ⟨1, 2, 0, 0⟩,
          sem := { open_semaphores with mutex := 0 }, out := [] }
      = { mem := { init_shared_memory ⟨1, 2, 0, 0⟩ with oxygens := 1 },
          sem := open_semaphores, out := [] } :=
  ⟨(arrival_is_pairing_decision atom.O
      { mem := init_shared_memory ⟨1, 2, 0, 0⟩,
        sem := { open_semaphores with mutex := 0 }, out := [] }
      (by decide) (by decide)).2 (by decide) (by decide) (by decide) (by decide),
    by decide⟩

/-! ### Bond barrier -/

/-- One call of `bond` with `bond_mutex` free and the counter at 0, 1 or 2. -/
theorem bond_step (w : World) (hm : w.sem.bond_mutex ≠ 0)
    (hb : 0 ≤ w.mem.bond ∧ w.mem.bond < 3) :
    bond w = some
      (if w.mem.bond = 2 then
        { w with mem := { w.mem with bond := 0 }
                 sem := { w.sem with barrier := w.sem.barrier + 3 } }
      else
        { w with mem := { w.mem with bond := w.mem.bond + 1 } }) := by
  unfold bond
  rw [if_neg hm, int_result_of_range _ (by simp only [INT_MIN]; omega)
    (by simp only [INT_MAX]; omega)]
  simp only [Option.bind_eq_bind, Option.some_bind]
  have e : w.sem.bond_mutex - 1 + 1 = w.sem.bond_mutex := by omega
  by_cases c : w.mem.bond = 2
  · rw [if_pos (by omega), if_pos c, e]
  · rw [if_neg (by omega), if_neg c, e]

/-- C6: starting from `bond = 0` (the start state), `n` calls of `bond`
complete and leave the counter at `n mod 3` and `3 * (n / 3)` units posted
on the barrier; the next call posts 3 units and resets the counter to 0 when
it is the third of its round, and otherwise posts nothing and only adds 1 to
the counter. -/
theorem bond_calls_counter (config : config_t) (n : Nat) :
    ∃ w : World, bond_calls n (start config) = some w ∧
      w.mem.bond = ((n % 3 : Nat) : Int) ∧
      w.sem.barrier = 3 * (n / 3) ∧
      ∃ w' : World, bond w = some w' ∧
        (n % 3 = 2 → w'.sem.barrier = w.sem.barrier + 3 ∧ w'.mem.bond = 0) ∧
        (n % 3 ≠ 2 → w'.sem.barrier = w.sem.barrier ∧ w'.mem.bond = w.mem.bond + 1) ∧
        { w' with mem := { w'.mem with bond := w.mem.bond }
                  sem := { w'.sem with barrier := w.sem.barrier } } = w := by
  have main : ∀ n : Nat, ∃ w : World, bond_calls n (start config) = some w ∧
      w.mem.bond = ((n % 3 : Nat) : Int) ∧ w.sem.barrier = 3 * (n / 3) ∧
      w.sem.bond_mutex ≠ 0 := by
    intro n
    induction n with
    | zero => exact ⟨start config, rfl, rfl, rfl, Nat.one_ne_zero⟩
    | succ k ih =>
      obtain ⟨w, h1, h2, h3, h4⟩ := ih
      have hs := bond_step w h4 (by omega)
      refine ⟨_, by simp only [bond_calls, h1, Option.some_bind]; exact hs, ?_, ?_, ?_⟩
      · split
        · rename_i c
          simp only
          omega
        · rename_i c
          simp only
          omega
      · split
        · rename_i c
          simp only
          omega
        · rename_i c
          simp only
          omega
      · split <;> exact h4
  obtain ⟨w, h1, h2, h3, h4⟩ := main n
  refine ⟨w, h1, h2, h3, _, bond_step w h4 (by omega), ?_, ?_, ?_⟩
  · intro c
    rw [if_pos (by omega)]
    exact ⟨rfl, rfl⟩
  · intro c
    rw [if_neg (by omega)]
    exact ⟨rfl, rfl⟩
  · split <;> rfl

/-- Witness of C6: after 5 calls the counter is 2 and 3 units are posted; the
sixth call completes the second round, posts 3 more and resets the counter. -/
theorem bond_calls_counter_witness :
    (bond_calls 5 (start ⟨3, 6, 0, 0⟩)).map (fun w => (w.mem.bond, w.sem.barrier)) = some (2, 3) ∧
    (bond_calls 6 (start ⟨3, 6, 0, 0⟩)).map (fun w => (w.mem.bond, w.sem.barrier)) = some (0, 6) := by
  obtain ⟨w, h1, h2, h3, _⟩ := bond_calls_counter ⟨3, 6, 0, 0⟩ 5
  obtain ⟨v, g1, g2, g3, _⟩ := bond_calls_counter ⟨3, 6, 0, 0⟩ 6
  rw [h1, g1]
  simp only [Option.map_some', Option.some.injEq, Prod.mk.injEq]
  exact ⟨⟨by rw [h2]; decide, by rw [h3]⟩, ⟨by rw [g2]; decide, by rw [g3]⟩⟩

/-! ### Logger -/

/-- What a completed call of `print_to_file` did. -/
theorem print_to_file_spec (text : String) (w w' : World) (h : print_to_file text w = some w') :
    w.sem.print_mutex ≠ 0 ∧ w.mem.action_id + 1 ≤ INT_MAX ∧
    w' = { w with mem := { w.mem with action_id := w.mem.action_id + 1 }
                  out := w.out ++ [{ stamp := w.mem.action_id, text := text }] } := by
  unfold print_to_file at h
  split at h
  · exact absurd h (by simp)
  · rename_i hm
    simp only [Option.bind_eq_bind, Option.bind_eq_some, int_result_eq_some,
      Option.some.injEq] at h
    obtain ⟨x, ⟨hr, rfl⟩, h⟩ := h
    have e : w.sem.print_mutex - 1 + 1 = w.sem.print_mutex := by omega
    rw [e] at h
    exact ⟨hm, hr.2, h.symm⟩

/-- A call of `print_to_file` completes when the mutex is free and the
counter is below `INT_MAX`. -/
theorem print_to_file_defined (text : String) (w : World) (hm : w.sem.print_mutex ≠ 0)
    (h0 : 0 ≤ w.mem.action_id) (h1 : w.mem.action_id < INT_MAX) :
    ∃ w', print_to_file text w = some w' := by
  unfold print_to_file
  simp only [INT_MAX] at h1
  rw [if_neg hm, int_result_of_range _ (by simp only [INT_MIN]; omega)
    (by simp only [INT_MAX]; omega)]
  exact ⟨_, rfl⟩

/-- Lines written and counter left by a completed sequence of calls. -/
theorem print_calls_spec (texts : List String) :
    ∀ (w w' : World), print_calls texts w = some w' →
      w'.mem.action_id = w.mem.action_id + (texts.length : Nat) ∧
      w'.out.map line_t.text = w.out.map line_t.text ++ texts ∧
      w'.out.map line_t.stamp = w.out.map line_t.stamp
        ++ (List.range texts.length).map (fun (i : Nat) => w.mem.action_id + (i : Int)) := by
  induction texts with
  | nil =>
    intro w w' h
    simp only [print_calls, Option.some.injEq] at h
    subst h
    simp
  | cons t rest ih =>
    intro w w' h
    simp only [print_calls, Option.bind_eq_some] at h
    obtain ⟨w1, h1, h2⟩ := h
    obtain ⟨_, _, rfl⟩ := print_to_file_spec t w w1 h1
    obtain ⟨a1, a2, a3⟩ := ih _ w' h2
    simp only [List.map_append, List.map_cons, List.map_nil, List.append_assoc,
      List.singleton_append] at a1 a2 a3
    refine ⟨?_, ?_, ?_⟩
    · rw [a1, List.length_cons]
      push_cast
      omega
    · rw [a2]
    · rw [a3, List.length_cons, List.range_succ_eq_map, List.map_cons, List.map_map]
      congr 2
      · simp
      · apply List.map_congr_left
        intro i _
        simp only [Function.comp_apply, Nat.succ_eq_add_one, Nat.cast_add, Nat.cast_one]
        omega

/-- A sequence of calls completes when the counter stays in the range of
`int`. -/
theorem print_calls_defined (texts : List String) :
    ∀ (w : World), w.sem.print_mutex ≠ 0 → 0 ≤ w.mem.action_id →
      w.mem.action_id + (texts.length : Nat) ≤ INT_MAX →
      ∃ w', print_calls texts w = some w' := by
  induction texts with
  | nil =>
    intro w _ _ _
    exact ⟨w, rfl⟩
  | cons t rest ih =>
    intro w hm h0 hb
    simp only [List.length_cons, Nat.cast_add, Nat.cast_one, INT_MAX] at hb
    obtain ⟨w1, h1⟩ := print_to_file_defined t w hm h0 (by simp only [INT_MAX]; omega)
    obtain ⟨_, _, e⟩ := print_to_file_spec t w w1 h1
    obtain ⟨w2, h2⟩ := ih w1 (by rw [e]; exact hm) (by rw [e]; simp only; omega)
      (by rw [e]; simp only [INT_MAX]; omega)
    exact ⟨w2, by simp only [print_calls, h1, Option.some_bind, h2]⟩

/-- C7: starting from the start state, whatever the texts, the calls of
`print_to_file` taken in the order in which they hold `print_mutex` stamp
their lines 1, 2, ..., k and leave `action_id = k + 1` after the k-th call;
the k-th call writes the k-th text after the lines written before.  The k
calls complete as long as `k + 1` fits in `int`. -/
theorem print_calls_stamps (config : config_t) (texts : List String) :
    (∀ w : World, print_calls texts (start config) = some w →
        w.out.map line_t.stamp = first_ids texts.length ∧
        w.out.map line_t.text = texts ∧
        w.mem.action_id = (texts.length : Int) + 1) ∧
    ((texts.length : Int) + 1 ≤ INT_MAX →
        ∃ w : World, print_calls texts (start config) = some w) := by
  constructor
  · intro w h
    obtain ⟨a1, a2, a3⟩ := print_calls_spec texts (start config) w h
    have z : (start config).mem.action_id = 1 := rfl
    have o : (start config).out = [] := rfl
    rw [z] at a1 a3
    rw [o] at a2 a3
    refine ⟨?_, by simpa using a2, by rw [a1]; omega⟩
    rw [a3, first_ids, List.map_nil, List.nil_append]
    apply List.map_congr_left
    intro i _
    omega
  · intro hb
    exact print_calls_defined texts (start config) Nat.one_ne_zero Int.one_nonneg
      (by
        have z : (start config).mem.action_id = 1 := rfl
        rw [z]
        omega)

/-- Witness of C7: three lines are stamped 1, 2, 3 and leave `action_id = 4`. -/
theorem print_calls_stamps_witness :
    ∃ w : World,
      print_calls ["O 1: started\n", "H 1: started\n", "O 1: going to queue\n"]
        (start ⟨1, 2, 0, 0⟩) = some w ∧
      w.out.map line_t.stamp = [1, 2, 3] ∧ w.mem.action_id = 4 := by
  obtain ⟨h1, h2⟩ := print_calls_stamps ⟨1, 2, 0, 0⟩
    ["O 1: started\n", "H 1: started\n", "O 1: going to queue\n"]
  obtain ⟨w, hw⟩ := h2 (by decide)
  obtain ⟨e1, _, e3⟩ := h1 w hw
  exact ⟨w, hw, by rw [e1]; decide, by rw [e3]; decide⟩

/-! ### Shutdown -/

/-- The first loop of `shutdown_processes` adds its bound to the oxygen queue. -/
theorem iterate_post_oxyQueue (n : Nat) (w : World) :
    Nat.iterate post_oxyQueue n w
      = { w with sem := { w.sem with oxyQueue := w.sem.oxyQueue + n } } := by
  induction n with
  | zero => rfl
  | succ k ih =>
    rw [Function.iterate_succ_apply', ih]
    simp only [post_oxyQueue, Nat.add_assoc]

/-- The second loop of `shutdown_processes` adds its bound to the hydrogen
queue. -/
theorem iterate_post_hydroQueue (n : Nat) (w : World) :
    Nat.iterate post_hydroQueue n w
      = { w with sem := { w.sem with hydroQueue := w.sem.hydroQueue + n } } := by
  induction n with
  | zero => rfl
  | succ k ih =>
    rw [Function.iterate_succ_apply', ih]
    simp only [post_hydroQueue, Nat.add_assoc]

/-- A critical section does not touch `max_molecules`. -/
theorem arrival_max_molecules (a : atom) (w w' : World) (h : arrival a w = some w') :
    w'.mem.max_molecules = w.mem.max_molecules := by
  cases a
  · rcases oxygen_arrival_spec w w' h with ⟨_, _, _, rfl⟩ | ⟨_, _, rfl⟩ <;> rfl
  · rcases hydrogen_arrival_spec w w' h with ⟨_, _, _, rfl⟩ | ⟨_, _, rfl⟩ <;> rfl

/-- A run of critical sections does not touch `max_molecules`. -/
theorem arrivals_max_molecules (order : List atom) :
    ∀ (w w' : World), arrivals order w = some w' →
      w'.mem.max_molecules = w.mem.max_molecules := by
  induction order with
  | nil =>
    intro w w' h
    simp only [arrivals, Option.some.injEq] at h
    rw [h]
  | cons a rest ih =>
    intro w w' h
    simp only [arrivals, Option.bind_eq_some] at h
    obtain ⟨w1, h1, h2⟩ := h
    rw [ih w1 w' h2, arrival_max_molecules a w w1 h1]

/-- Atoms left unpaired by a completed run of arrivals, whatever the order:
`O - min(O, H / 2)` oxygens and `H - 2 * min(O, H / 2)` hydrogens. -/
theorem arrivals_leftover (config : config_t) (order : List atom) (w : World)
    (h : arrivals order (start config) = some w) :
    w.mem.oxygens
      = ((order.count atom.O
          - min (order.count atom.O) (order.count atom.H / 2) : Nat) : Int) ∧
    w.mem.hydrogens
      = ((order.count atom.H
          - 2 * min (order.count atom.O) (order.count atom.H / 2) : Nat) : Int) := by
  have z1 : (start config).mem.oxygens = 0 := rfl
  have z2 : (start config).mem.hydrogens = 0 := rfl
  have z3 : (start config).mem.molecule_id = 0 := rfl
  obtain ⟨b1, b2, b3, b4, b5, b6⟩ := arrivals_counters order (start config) w h
    (by rw [z1]) (by rw [z2]) (by rw [z2]; left; decide)
  rw [z1, z3] at b5
  rw [z2, z3] at b6
  rw [z3] at b4
  omega

/-- Witness of the leftover counts: of 2 oxygens and 3 hydrogens, one oxygen
and one hydrogen stay unpaired. -/
theorem arrivals_leftover_witness :
    ∃ w : World,
      arrivals [atom.O, atom.H, atom.H, atom.O, atom.H] (start ⟨2, 3, 0, 0⟩) = some w ∧
      w.mem.oxygens = 1 ∧ w.mem.hydrogens = 1 := by
  obtain ⟨w, hw⟩ := arrivals_defined
    [atom.O, atom.H, atom.H, atom.O, atom.H] (start ⟨2, 3, 0, 0⟩)
    (by decide) (by decide) (by decide) (by decide) (by decide) (by decide)
  obtain ⟨e1, e2⟩ := arrivals_leftover ⟨2, 3, 0, 0⟩
    [atom.O, atom.H, atom.H, atom.O, atom.H] w hw
  exact ⟨w, hw, by rw [e1]; decide, by rw [e2]; decide⟩

/-- Below `2 ^ 31` hydrogens the loop bounds of `shutdown_processes` are
right: after all the arrivals of a configuration, in any order, the two
bounds are `O - max_molecules` and `H - 2 * max_molecules` without wrapping,
and they equal the counters `oxygens` and `hydrogens` left by the arrivals.
This counts the tokens that `shutdown_processes` posts, not the atoms that
print a `not enough` line. -/
theorem shutdown_release_counts (config : config_t) (order : List atom) (w : World)
    (hH : config.hydrogen_amount < 2147483648) (hO : config.oxygen_amount < 4294967296)
    (cO : order.count atom.O = config.oxygen_amount)
    (cH : order.count atom.H = config.hydrogen_amount)
    (h : arrivals order (start config) = some w) :
    w.mem.max_molecules
      = ((min config.oxygen_amount (config.hydrogen_amount / 2) : Nat) : Int) ∧
    oxygen_release_bound config w
      = config.oxygen_amount - min config.oxygen_amount (config.hydrogen_amount / 2) ∧
    hydrogen_release_bound config w
      = some (config.hydrogen_amount
          - 2 * min config.oxygen_amount (config.hydrogen_amount / 2)) ∧
    w.mem.oxygens = (oxygen_release_bound config w : Int) ∧
    some w.mem.hydrogens
      = (hydrogen_release_bound config w).map (fun (n : Nat) => (n : Int)) := by
  have hM : w.mem.max_molecules
      = ((min config.oxygen_amount (config.hydrogen_amount / 2) : Nat) : Int) := by
    rw [arrivals_max_molecules order (start config) w h]
    exact init_shared_memory_max_molecules config hH
  have z1 : (start config).mem.oxygens = 0 := rfl
  have z2 : (start config).mem.hydrogens = 0 := rfl
  have z3 : (start config).mem.molecule_id = 0 := rfl
  obtain ⟨b1, b2, b3, b4, b5, b6⟩ := arrivals_counters order (start config) w h
    (by rw [z1]) (by rw [z2]) (by rw [z2]; left; decide)
  rw [z1, z3, cO] at b5
  rw [z2, z3, cH] at b6
  rw [z3] at b4
  generalize hm : min config.oxygen_amount (config.hydrogen_amount / 2) = m at hM ⊢
  have hm1 : m ≤ config.oxygen_amount := by omega
  have hm2 : 2 * m ≤ config.hydrogen_amount := by omega
  have hid : w.mem.molecule_id = (m : Int) := by omega
  have e1 : oxygen_release_bound config w = config.oxygen_amount - m := by
    simp only [oxygen_release_bound, unsigned_sub, to_unsigned, UINT_RANGE, hM]
    omega
  have e2 : hydrogen_release_bound config w = some (config.hydrogen_amount - 2 * m) := by
    simp only [hydrogen_release_bound, hM]
    rw [int_result_of_range _ (by simp only [INT_MIN]; omega) (by simp only [INT_MAX]; omega)]
    simp only [Option.map_some', unsigned_sub, to_unsigned, UINT_RANGE, Option.some.injEq]
    omega
  refine ⟨hM, e1, e2, ?_, ?_⟩
  · rw [e1]
    omega
  · rw [e2]
    simp only [Option.map_some', Option.some.injEq]
    omega

/-- Witness of the release counts: 5 oxygens and 2 hydrogens, the hydrogens
arriving first, release 4 oxygens and no hydrogen. -/
theorem shutdown_release_counts_witness :
    ∃ w : World,
      arrivals [atom.H, atom.H, atom.O, atom.O, atom.O, atom.O, atom.O] (start ⟨5, 2, 0, 0⟩)
        = some w ∧
      w.mem.max_molecules = 1 ∧ oxygen_release_bound ⟨5, 2, 0, 0⟩ w = 4 ∧
      hydrogen_release_bound ⟨5, 2, 0, 0⟩ w = some 0 ∧ w.mem.oxygens = 4 ∧
      w.mem.hydrogens = 0 := by
  obtain ⟨w, hw⟩ := arrivals_defined
    [atom.H, atom.H, atom.O, atom.O, atom.O, atom.O, atom.O] (start ⟨5, 2, 0, 0⟩)
    (by decide) (by decide) (by decide) (by decide) (by decide) (by decide)
  obtain ⟨a1, a2, a3, a4, a5⟩ := shutdown_release_counts ⟨5, 2, 0, 0⟩
    [atom.H, atom.H, atom.O, atom.O, atom.O, atom.O, atom.O] w (by decide) (by decide)
    (by decide) (by decide) hw
  rw [a3] at a5
  rw [a2] at a4
  simp only [Option.map_some', Option.some.injEq] at a5
  exact ⟨w, hw, by rw [a1]; decide, by rw [a2]; decide, by rw [a3]; decide,
    by rw [a4]; decide, by rw [a5]; decide⟩

/-- Effect of `shutdown_processes`: the flag is set and each queue receives
as many tokens as its loop bound. -/
theorem shutdown_processes_posts (config : config_t) (w : World) :
    shutdown_processes config w
      = (hydrogen_release_bound config w).map (fun n =>
          { w with
            mem := { w.mem with shutdown := -1 }
            sem := { w.sem with
              oxyQueue := w.sem.oxyQueue + oxygen_release_bound config w
              hydroQueue := w.sem.hydroQueue + n } }) := by
  simp only [shutdown_processes, iterate_post_oxyQueue, iterate_post_hydroQueue]
  rfl

/-- C3 fails on the code, by the barrier defect of C10.
`shutdown_race_schedule` is a complete run of `./proj2 3 6 0 0`: the parent
and all nine children return.  `max_molecules` is 3, both loop bounds of
`shutdown_processes` are 0 and so are the counters `oxygens` and `hydrogens`,
and O + H - 3 * max_molecules is 0; yet the file has three
`not enough O or H` lines.  They come from hydrogens that pairings had
already admitted: oxygen 3 leaves the barrier and posts `release_function`
before they have run, the parent sets the shutdown flag, and they test it
when they wake from `sem_wait(hydroQueue)`. -/
theorem released_atoms_exceed_surplus :
    (run ⟨3, 6, 0, 0⟩ shutdown_race_schedule (spawn ⟨3, 6, 0, 0⟩)).map
        (fun s => (s.main_pc, s.children.map process_t.pc,
          [s.shared.mem.max_molecules, s.shared.mem.shutdown, s.shared.mem.oxygens,
            s.shared.mem.hydrogens],
          s.shared.out.map line_t.text))
      = some (2, [14, 14, 14, 12, 12, 12, 12, 12, 12], [3, -1, 0, 0],
          shutdown_race_output) ∧
    oxygen_release_bound ⟨3, 6, 0, 0⟩ (start ⟨3, 6, 0, 0⟩) = 0 ∧
    hydrogen_release_bound ⟨3, 6, 0, 0⟩ (start ⟨3, 6, 0, 0⟩) = some 0 ∧
    (3 + 6 : Int) - 3 * (init_shared_memory ⟨3, 6, 0, 0⟩).max_molecules = 0 ∧
    lines_ending "not enough O or H\n" shutdown_race_output = 3 ∧
    lines_ending "not enough H\n" shutdown_race_output = 0 := by
  decide

/-! ### Command line -/

/-- An iteration of the loop of `valid_config` whose argument is parsed to
its end with a non-negative value goes on to the next index. -/
theorem valid_config_loop_pass (argv : List (List Char)) (i n : Nat)
    (h1 : (strtol (argv.getD (i + 1) [])).2 = [])
    (h2 : 0 ≤ (strtol (argv.getD (i + 1) [])).1) :
    valid_config_loop argv i (n + 1)
      = match valid_config_loop argv (i + 1) n with
        | Except.error code => Except.error code
        | Except.ok args => Except.ok ((strtol (argv.getD (i + 1) [])).1 :: args) := by
  rw [valid_config_loop, if_neg (not_not.mpr h1), if_neg (not_lt.mpr h2)]

/-- An iteration of the loop of `valid_config` whose argument has unparsed
characters left or a negative value returns the negated argument number. -/
theorem valid_config_loop_stop (argv : List (List Char)) (i n : Nat)
    (h : (strtol (argv.getD (i + 1) [])).2 ≠ [] ∨ (strtol (argv.getD (i + 1) [])).1 < 0) :
    valid_config_loop argv i (n + 1) = Except.error (-((i : Int) + 1)) := by
  rw [valid_config_loop]
  by_cases c : (strtol (argv.getD (i + 1) [])).2 ≠ []
  · rw [if_pos c]
  · rw [if_neg c]
    rcases h with h | h
    · exact absurd h c
    · rw [if_pos h]

/-- Outcome of the loop of `valid_config`: either every argument is parsed to
its end with a non-negative value and the values are stored in order, or the
code names the first argument that is not. -/
theorem valid_config_loop_spec (argv : List (List Char)) (n : Nat) :
    ∀ i : Nat,
      (valid_config_loop argv i n
          = Except.ok ((List.range n).map
              (fun (k : Nat) => (strtol (argv.getD (i + k + 1) [])).1)) ∧
        ∀ k : Nat, k < n →
          (strtol (argv.getD (i + k + 1) [])).2 = [] ∧
          0 ≤ (strtol (argv.getD (i + k + 1) [])).1) ∨
      (∃ k : Nat, k < n ∧
        valid_config_loop argv i n = Except.error (-(((i + k : Nat) : Int) + 1)) ∧
        ((strtol (argv.getD (i + k + 1) [])).2 ≠ [] ∨
          (strtol (argv.getD (i + k + 1) [])).1 < 0) ∧
        ∀ j : Nat, j < k →
          (strtol (argv.getD (i + j + 1) [])).2 = [] ∧
          0 ≤ (strtol (argv.getD (i + j + 1) [])).1) := by
  induction n with
  | zero =>
    intro i
    left
    exact ⟨rfl, fun k hk => absurd hk (Nat.not_lt_zero k)⟩
  | succ m ih =>
    intro i
    by_cases c : (strtol (argv.getD (i + 1) [])).2 = [] ∧ 0 ≤ (strtol (argv.getD (i + 1) [])).1
    · have step := valid_config_loop_pass argv i m c.1 c.2
      rcases ih (i + 1) with ⟨e, g⟩ | ⟨k, hk, e, b, g⟩
      · left
        refine ⟨?_, ?_⟩
        · rw [step, e, List.range_succ_eq_map, List.map_cons, List.map_map]
          simp only [Nat.add_zero]
          congr 2
          apply List.map_congr_left
          intro k _
          simp only [Function.comp_apply, Nat.succ_eq_add_one]
          rw [show i + 1 + k + 1 = i + (k + 1) + 1 by omega]
        · intro k hk
          cases k with
          | zero => exact c
          | succ j =>
            have := g j (by omega)
            rw [show i + 1 + j + 1 = i + (j + 1) + 1 by omega] at this
            exact this
      · right
        refine ⟨k + 1, by omega, ?_, ?_, ?_⟩
        · rw [step, e]
          simp only
          rw [show i + 1 + k = i + (k + 1) by omega]
        · rw [show i + 1 + k + 1 = i + (k + 1) + 1 by omega] at b
          exact b
        · intro j hj
          cases j with
          | zero => exact c
          | succ j' =>
            have := g j' (by omega)
            rw [show i + 1 + j' + 1 = i + (j' + 1) + 1 by omega] at this
            exact this
    · right
      have c' : (strtol (argv.getD (i + 1) [])).2 ≠ [] ∨ (strtol (argv.getD (i + 1) [])).1 < 0 := by
        by_cases d : (strtol (argv.getD (i + 1) [])).2 = []
        · right
          exact not_le.mp (fun x => c ⟨d, x⟩)
        · left
          exact d
      exact ⟨0, by omega, by rw [valid_config_loop_stop argv i m c']; rfl, c',
        fun j hj => absurd hj (Nat.not_lt_zero j)⟩

/-- Every outcome of `valid_config`.  With `v k` the value and `e k` the
unparsed rest that `strtol` gives for argument `k`: code -5 for a wrong
argument count; code `-k` when argument `k` is the first with `e k` non-empty
or `v k` negative; then -1 or -2 for a zero amount, -3 or -4 for a time above
1000; in all these cases `config` is left as it was.  Otherwise code 0 and
the four values are stored, converted to `unsigned int`. -/
theorem valid_config_outcome (config : config_t) (argc : Int) (argv : List (List Char)) :
    (argc ≠ 5 ∧ valid_config config argc argv = (-5, config)) ∨
    (argc = 5 ∧ ∃ k : Nat, k < 4 ∧
      valid_config config argc argv = (-((k : Int) + 1), config) ∧
      ((strtol (argv.getD (k + 1) [])).2 ≠ [] ∨ (strtol (argv.getD (k + 1) [])).1 < 0)) ∨
    (argc = 5 ∧
      (∀ k : Nat, k < 4 →
        (strtol (argv.getD (k + 1) [])).2 = [] ∧ 0 ≤ (strtol (argv.getD (k + 1) [])).1) ∧
      ((valid_config config argc argv = (-1, config) ∧ (strtol (argv.getD 1 [])).1 = 0) ∨
       (valid_config config argc argv = (-2, config) ∧ (strtol (argv.getD 2 [])).1 = 0) ∨
       (valid_config config argc argv = (-3, config) ∧ (strtol (argv.getD 3 [])).1 > 1000) ∨
       (valid_config config argc argv = (-4, config) ∧ (strtol (argv.getD 4 [])).1 > 1000) ∨
       (valid_config config argc argv
          = (0, { oxygen_amount := to_unsigned (strtol (argv.getD 1 [])).1
                  hydrogen_amount := to_unsigned (strtol (argv.getD 2 [])).1
                  wait_time := to_unsigned (strtol (argv.getD 3 [])).1
                  bond_time := to_unsigned (strtol (argv.getD 4 [])).1 }) ∧
        (strtol (argv.getD 1 [])).1 ≠ 0 ∧ (strtol (argv.getD 2 [])).1 ≠ 0 ∧
        (strtol (argv.getD 3 [])).1 ≤ 1000 ∧ (strtol (argv.getD 4 [])).1 ≤ 1000))) := by
  by_cases hc : argc = 5
  · right
    rcases valid_config_loop_spec argv 4 0 with ⟨e, g⟩ | ⟨k, hk, e, b, _⟩
    · right
      have g' : ∀ k : Nat, k < 4 →
          (strtol (argv.getD (k + 1) [])).2 = [] ∧ 0 ≤ (strtol (argv.getD (k + 1) [])).1 := by
        intro k hk
        have := g k hk
        rw [Nat.zero_add] at this
        exact this
      have e' : valid_config_loop argv 0 4
          = Except.ok [(strtol (argv.getD 1 [])).1, (strtol (argv.getD 2 [])).1,
              (strtol (argv.getD 3 [])).1, (strtol (argv.getD 4 [])).1] := e
      refine ⟨hc, g', ?_⟩
      unfold valid_config
      rw [if_neg (not_not.mpr hc), e']
      simp only [List.getD_cons_zero, List.getD_cons_succ]
      by_cases c1 : (strtol (argv.getD 1 [])).1 = 0
      · left
        rw [if_pos c1]
        exact ⟨rfl, c1⟩
      · rw [if_neg c1]
        right
        by_cases c2 : (strtol (argv.getD 2 [])).1 = 0
        · left
          rw [if_pos c2]
          exact ⟨rfl, c2⟩
        · rw [if_neg c2]
          right
          by_cases c3 : (strtol (argv.getD 3 [])).1 > 1000
          · left
            rw [if_pos c3]
            exact ⟨rfl, c3⟩
          · rw [if_neg c3]
            right
            by_cases c4 : (strtol (argv.getD 4 [])).1 > 1000
            · left
              rw [if_pos c4]
              exact ⟨rfl, c4⟩
            · rw [if_neg c4]
              right
              exact ⟨rfl, c1, c2, not_lt.mp c3, not_lt.mp c4⟩
    · left
      rw [Nat.zero_add] at e b
      refine ⟨hc, k, hk, ?_, b⟩
      unfold valid_config
      rw [if_neg (not_not.mpr hc), e]
  · left
    refine ⟨hc, ?_⟩
    unfold valid_config
    rw [if_pos hc]

/-- Parts of C8 that hold: the code is -5 exactly when `argc` is not 5, and
whenever the code is not 0 the configuration is left unwritten. -/
theorem valid_config_errors (config : config_t) (argc : Int) (argv : List (List Char)) :
    ((valid_config config argc argv).1 = -5 ↔ argc ≠ 5) ∧
    ((valid_config config argc argv).1 ≠ 0 → (valid_config config argc argv).2 = config) := by
  rcases valid_config_outcome config argc argv with
    ⟨h, e⟩ | ⟨h, k, hk, e, _⟩ | ⟨h, _, ⟨e, _⟩ | ⟨e, _⟩ | ⟨e, _⟩ | ⟨e, _⟩ | ⟨e, _⟩⟩
  · rw [e]
    exact ⟨⟨fun _ => h, fun _ => rfl⟩, fun _ => rfl⟩
  · rw [e]
    refine ⟨⟨fun x => ?_, fun x => absurd h x⟩, fun _ => rfl⟩
    have x' : -((k : Int) + 1) = -5 := x
    omega
  · rw [e]
    exact ⟨⟨fun x => absurd (show (-1 : Int) = -5 from x) (by decide), fun x => absurd h x⟩,
      fun _ => rfl⟩
  · rw [e]
    exact ⟨⟨fun x => absurd (show (-2 : Int) = -5 from x) (by decide), fun x => absurd h x⟩,
      fun _ => rfl⟩
  · rw [e]
    exact ⟨⟨fun x => absurd (show (-3 : Int) = -5 from x) (by decide), fun x => absurd h x⟩,
      fun _ => rfl⟩
  · rw [e]
    exact ⟨⟨fun x => absurd (show (-4 : Int) = -5 from x) (by decide), fun x => absurd h x⟩,
      fun _ => rfl⟩
  · rw [e]
    exact ⟨⟨fun x => absurd (show (0 : Int) = -5 from x) (by decide), fun x => absurd h x⟩,
      fun x => absurd rfl x⟩

/-- C8 fails on the code: the command line `./proj2 1 2 "" ""`, whose third
and fourth arguments are empty strings and so no integers, is accepted with
code 0 and stored as waiting time 0 and bonding time 0 (`strtol` converts
nothing, returns 0 and leaves `end` at the terminating zero). -/
theorem valid_config_accepts_empty_arguments :
    strtol [] = (0, []) ∧
    valid_config ⟨0, 0, 0, 0⟩ 5 ["./proj2".toList, "1".toList, "2".toList, [], []]
      = (0, ⟨1, 2, 0, 0⟩) := by
  decide

/-- Part of C9 that holds: when `valid_config` returns 0, the two stored
times are the values parsed and at most 1000, and each stored amount is the
parsed value reduced modulo `2 ^ 32`. -/
theorem valid_config_stored (config : config_t) (argc : Int) (argv : List (List Char))
    (h : (valid_config config argc argv).1 = 0) :
    ((valid_config config argc argv).2.wait_time : Int) = (strtol (argv.getD 3 [])).1 ∧
    ((valid_config config argc argv).2.bond_time : Int) = (strtol (argv.getD 4 [])).1 ∧
    (valid_config config argc argv).2.wait_time ≤ 1000 ∧
    (valid_config config argc argv).2.bond_time ≤ 1000 ∧
    ((valid_config config argc argv).2.oxygen_amount : Int)
      = (strtol (argv.getD 1 [])).1 % 4294967296 ∧
    ((valid_config config argc argv).2.hydrogen_amount : Int)
      = (strtol (argv.getD 2 [])).1 % 4294967296 := by
  rcases valid_config_outcome config argc argv with
    ⟨_, e⟩ | ⟨_, k, hk, e, _⟩ | ⟨_, g, ⟨e, _⟩ | ⟨e, _⟩ | ⟨e, _⟩ | ⟨e, _⟩ | ⟨e, _, _, c3, c4⟩⟩
  · rw [e] at h
    have h' : (-5 : Int) = 0 := h
    omega
  · rw [e] at h
    have h' : -((k : Int) + 1) = 0 := h
    omega
  · rw [e] at h
    have h' : (-1 : Int) = 0 := h
    omega
  · rw [e] at h
    have h' : (-2 : Int) = 0 := h
    omega
  · rw [e] at h
    have h' : (-3 : Int) = 0 := h
    omega
  · rw [e] at h
    have h' : (-4 : Int) = 0 := h
    omega
  · rw [e]
    have g3 : 0 ≤ (strtol (argv.getD 3 [])).1 := (g 2 (by decide)).2
    have g4 : 0 ≤ (strtol (argv.getD 4 [])).1 := (g 3 (by decide)).2
    simp only [to_unsigned]
    omega

/-- Witness of the stored values: `./proj2 3 5 100 1000`. -/
theorem valid_config_stored_witness :
    valid_config ⟨0, 0, 0, 0⟩ 5
        ["./proj2".toList, "3".toList, "5".toList, "100".toList, "1000".toList]
      = (0, ⟨3, 5, 100, 1000⟩) ∧
    (3 : Int) = (strtol "3".toList).1 % 4294967296 :=
  ⟨by decide,
    by
      have h := (valid_config_stored ⟨0, 0, 0, 0⟩ 5
        ["./proj2".toList, "3".toList, "5".toList, "100".toList, "1000".toList]
        (by decide)).2.2.2.2.1
      exact h⟩

/-- C9 fails on the code: the command line `./proj2 4294967296 1 0 0` is
accepted with code 0, and the amount 4294967296, parsed as a `long`, is
stored in the `unsigned int` field as 0: the stored oxygen amount is neither
positive nor the integer written. -/
theorem valid_config_truncates_amount :
    strtol "4294967296".toList = (4294967296, []) ∧
    valid_config ⟨0, 0, 0, 0⟩ 5
        ["./proj2".toList, "4294967296".toList, "1".toList, "0".toList, "0".toList]
      = (0, ⟨0, 1, 0, 0⟩) := by
  decide

/-! ### Bonding rounds -/

/-- C10 fails on the code.  For `./proj2 3 6 0 0` the schedule
`interleaved_schedule` is a complete run: the parent and all nine children
return and every semaphore is back at its initial value.  The oxygen of
molecule 2 takes a barrier token that the hydrogens of molecule 1 have not
consumed yet and posts the mutex before its own hydrogens have run; the third
pairing is committed meanwhile, so `O 3: creating molecule 3` (line 27) is
written when only one `molecule 2 created` line exists, and the hydrogens
paired in round 2 report molecule 3: the file ends with one
`molecule 2 created` line and five `molecule 3 created` lines. -/
theorem bonding_rounds_interleave :
    (run ⟨3, 6, 0, 0⟩ interleaved_schedule (spawn ⟨3, 6, 0, 0⟩)).map
        (fun s => (s.main_pc, s.children.map process_t.pc, s.shared.sem,
          s.shared.mem.molecule_id, s.shared.out.map line_t.text))
      = some (2, [14, 14, 14, 12, 12, 12, 12, 12, 12], open_semaphores, 3,
          interleaved_output) ∧
    interleaved_output.get? 26 = some "O 3: creating molecule 3\n" ∧
    lines_ending "molecule 2 created\n" (interleaved_output.take 26) = 1 ∧
    lines_ending "molecule 2 created\n" interleaved_output = 1 ∧
    lines_ending "molecule 3 created\n" interleaved_output = 5 ∧
    lines_ending "creating molecule 3\n" interleaved_output = 5 := by
  decide

/-! ### Random delays -/

/-- C11: for every maximum `v` (an `unsigned int`) and every non-negative
`int` result `r` of `rand()`, `random_number` returns a value: 0 when `v` is 0,
where no remainder is computed (the remainder by 0 is undefined), and
otherwise `(r mod v) + 1`, which lies between 1 and `v`; it never exceeds `v`.
With `v` at most 1000 the argument of `usleep` is that value times 1000
microseconds, without wrapping, so the delay is at most `v` milliseconds. -/
theorem random_number_bounded (r : Int) (v : Nat)
    (hr : 0 ≤ r) (hi : r ≤ INT_MAX) (hv : v < UINT_RANGE) :
    random_number r v = some (if v = 0 then 0 else r.toNat % v + 1) ∧
    unsigned_rem (to_unsigned r) 0 = none ∧
    (∀ n : Nat, random_number r v = some n → n ≤ v ∧ (v ≠ 0 → 1 ≤ n)) ∧
    (v ≤ 1000 →
      usleep_argument r v = some ((if v = 0 then 0 else r.toNat % v + 1) * 1000) ∧
      ∀ d : Nat, usleep_argument r v = some d → d ≤ v * 1000) := by
  simp only [INT_MAX] at hi
  simp only [UINT_RANGE] at hv
  have hu : to_unsigned r = r.toNat := by
    simp only [to_unsigned]
    omega
  have hlt : r.toNat < 4294967296 := by omega
  have key : random_number r v = some (if v = 0 then 0 else r.toNat % v + 1) := by
    unfold random_number
    by_cases c : v = 0
    · rw [if_pos c, if_pos c]
    · have hm : r.toNat % v < v := Nat.mod_lt _ (Nat.pos_of_ne_zero c)
      rw [if_neg c, if_neg c, hu]
      simp only [unsigned_rem, unsigned_add, UINT_RANGE]
      rw [Nat.mod_eq_of_lt hv, if_neg c, Nat.mod_eq_of_lt hlt, Option.map_some',
        Nat.mod_eq_of_lt (by omega)]
  have bound : (if v = 0 then 0 else r.toNat % v + 1) ≤ v ∧
      (v ≠ 0 → 1 ≤ (if v = 0 then 0 else r.toNat % v + 1)) := by
    by_cases c : v = 0
    · rw [if_pos c]
      exact ⟨Nat.zero_le v, fun x => absurd c x⟩
    · have hm : r.toNat % v < v := Nat.mod_lt _ (Nat.pos_of_ne_zero c)
      rw [if_neg c]
      exact ⟨hm, fun _ => Nat.le_add_left 1 _⟩
  refine ⟨key, ?_, ?_, ?_⟩
  · simp [unsigned_rem]
  · intro n hn
    rw [key, Option.some.injEq] at hn
    rw [← hn]
    exact bound
  · intro hk
    have e : usleep_argument r v = some ((if v = 0 then 0 else r.toNat % v + 1) * 1000) := by
      unfold usleep_argument
      rw [key, Option.map_some']
      simp only [unsigned_mul, UINT_RANGE]
      rw [Nat.mod_eq_of_lt (by have := bound.1; omega)]
    refine ⟨e, ?_⟩
    intro d hd
    rw [e, Option.some.injEq] at hd
    rw [← hd]
    exact Nat.mul_le_mul_right 1000 bound.1

/-- Witness of C11: with `rand()` returning 1234567 and a maximum of 1000 the
number is 568 and the delay 568000 microseconds; with a maximum of 0 both
are 0. -/
theorem random_number_bounded_witness :
    random_number 1234567 1000 = some 568 ∧
    usleep_argument 1234567 1000 = some 568000 ∧
    random_number 1234567 0 = some 0 ∧
    usleep_argument 1234567 0 = some 0 :=
  ⟨(random_number_bounded 1234567 1000 (by decide) (by decide) (by decide)).1,
    ((random_number_bounded 1234567 1000 (by decide) (by decide) (by decide)).2.2.2
      (by decide)).1,
    (random_number_bounded 1234567 0 (by decide) (by decide) (by decide)).1,
    ((random_number_bounded 1234567 0 (by decide) (by decide) (by decide)).2.2.2
      (by decide)).1⟩

end H2O
